import Mathlib

/-!
Verification development for the gh-hud dashboard core
(src/app.ts, src/dashboard.ts, and the GitHubService adapter layer).

Each definition is a shallow embedding of the corresponding TypeScript
function; machine integers are modelled as Nat/Int, timestamps as Int
(epoch milliseconds), JavaScript Sets and Maps as lists of keys with
insertion-order semantics, and fallible calls as Except values.
-/

namespace GhHud

/-- A workflow run record (src/types.ts / GitHubService.listWorkflowRuns).
Only the fields consulted by the lifecycle tracker, the refresh
coordinator and the resurrect feature are embedded: the numeric run id,
the `status` string, and the creation timestamp. -/
structure WorkflowRun where
  id : Nat
  status : String
  createdAt : Int
deriving DecidableEq, Repr

/-- JavaScript `Set.add` / `Map.set`-style insertion on a list of keys:
no duplicates, insertion order preserved. -/
def setAdd (x : Nat) (l : List Nat) : List Nat :=
  if x ∈ l then l else l ++ [x]

/-- JavaScript `Set.delete` / `Map.delete` on a list of keys. -/
def setDelete (x : Nat) (l : List Nat) : List Nat :=
  l.filter (fun y => y ≠ x)

/-- The lifecycle tracker's mutable slice of `App`:
`watchedWorkflows : Set<number>` and the key set of
`completedWorkflows : Map<number, WorkflowRun>` (src/app.ts lines 20-21). -/
structure TrackerState where
  watchedWorkflows : List Nat
  completedWorkflows : List Nat
deriving DecidableEq, Repr

def TrackerState.init : TrackerState := ⟨[], []⟩

/-- One iteration of the watched/completed update loop in
`App.performRefresh` (src/app.ts lines 422-429): a non-completed
observation marks the run watched; an observation of `completed` while
watched and not yet recorded promotes the run into the
completed-pending map. -/
def trackRun (st : TrackerState) (run : WorkflowRun) : TrackerState :=
  if run.status ≠ "completed" then
    { st with watchedWorkflows := setAdd run.id st.watchedWorkflows }
  else if run.id ∈ st.watchedWorkflows ∧ run.id ∉ st.completedWorkflows then
    { st with completedWorkflows := setAdd run.id st.completedWorkflows }
  else st

/-- Feeding one poll result (the fetched run list) to the tracker. -/
def pollStep (st : TrackerState) (runs : List WorkflowRun) : TrackerState :=
  runs.foldl trackRun st

/-- Feeding a whole sequence of polls to the tracker, starting empty. -/
def applyPolls (polls : List (List WorkflowRun)) : TrackerState :=
  polls.foldl pollStep TrackerState.init

/-- The visible (rendered) run set computed by `App.performRefresh`
(src/app.ts lines 437-441): active runs plus completed runs that are in
the completed-pending map. -/
def visibleRuns (runs : List WorkflowRun) (st : TrackerState) : List WorkflowRun :=
  runs.filter (fun run => run.status ≠ "completed" ∨ run.id ∈ st.completedWorkflows)

/-- A run id is observed non-completed somewhere in a poll sequence. -/
def observedNonCompleted (polls : List (List WorkflowRun)) (id : Nat) : Prop :=
  ∃ p ∈ polls, ∃ r ∈ p, r.id = id ∧ r.status ≠ "completed"

theorem mem_setAdd {id x : Nat} {l : List Nat} (h : id ∈ setAdd x l) :
    id ∈ l ∨ id = x := by
  unfold setAdd at h
  split at h
  · exact Or.inl h
  · rcases List.mem_append.mp h with h' | h'
    · exact Or.inl h'
    · simp at h'
      exact Or.inr h'

theorem trackRun_watched_mono (st : TrackerState) (run : WorkflowRun) (id : Nat)
    (h : id ∈ (trackRun st run).watchedWorkflows) :
    id ∈ st.watchedWorkflows ∨ (run.id = id ∧ run.status ≠ "completed") := by
  unfold trackRun at h
  by_cases h1 : run.status ≠ "completed"
  · rw [if_pos h1] at h
    rcases mem_setAdd h with h' | h'
    · exact Or.inl h'
    · exact Or.inr ⟨h'.symm, h1⟩
  · rw [if_neg h1] at h
    split at h
    · exact Or.inl h
    · exact Or.inl h

theorem trackRun_completed_mono (st : TrackerState) (run : WorkflowRun) (id : Nat)
    (h : id ∈ (trackRun st run).completedWorkflows) :
    id ∈ st.completedWorkflows ∨ (run.id = id ∧ id ∈ st.watchedWorkflows) := by
  unfold trackRun at h
  split at h
  · exact Or.inl h
  · by_cases h2 : run.id ∈ st.watchedWorkflows ∧ run.id ∉ st.completedWorkflows
    · rw [if_pos h2] at h
      rcases mem_setAdd h with h' | h'
      · exact Or.inl h'
      · exact Or.inr ⟨h'.symm, h'.symm ▸ h2.1⟩
    · rw [if_neg h2] at h
      exact Or.inl h

/-- Inductive invariant for the unwatched path: a run id that no run in
the poll marks as watched stays out of both trackers. -/
theorem pollStep_never_watched (runs : List WorkflowRun) : ∀ (st : TrackerState) (id : Nat),
    id ∉ st.watchedWorkflows → id ∉ st.completedWorkflows →
    (∀ r ∈ runs, r.id = id → r.status = "completed") →
    id ∉ (pollStep st runs).watchedWorkflows ∧ id ∉ (pollStep st runs).completedWorkflows := by
  induction runs with
  | nil => exact fun st id hw hc _ => ⟨hw, hc⟩
  | cons r rs ih =>
    intro st id hw hc hobs
    have hr : r.id = id → r.status = "completed" := hobs r (by simp)
    have hw' : id ∉ (trackRun st r).watchedWorkflows := by
      intro h
      rcases trackRun_watched_mono st r id h with h' | ⟨hid, hs⟩
      · exact hw h'
      · exact hs (hr hid)
    have hc' : id ∉ (trackRun st r).completedWorkflows := by
      intro h
      rcases trackRun_completed_mono st r id h with h' | ⟨_, hmem⟩
      · exact hc h'
      · exact hw hmem
    have hstep : pollStep st (r :: rs) = pollStep (trackRun st r) rs := rfl
    rw [hstep]
    exact ih (trackRun st r) id hw' hc' (fun r' hr' => hobs r' (by simp [hr']))

/-- Folding a whole poll sequence preserves the unwatched invariant. -/
theorem foldPolls_never_watched (polls : List (List WorkflowRun)) :
    ∀ (st : TrackerState) (id : Nat),
    id ∉ st.watchedWorkflows → id ∉ st.completedWorkflows →
    (∀ p ∈ polls, ∀ r ∈ p, r.id = id → r.status = "completed") →
    id ∉ (polls.foldl pollStep st).watchedWorkflows ∧
      id ∉ (polls.foldl pollStep st).completedWorkflows := by
  induction polls with
  | nil => exact fun st id hw hc _ => ⟨hw, hc⟩
  | cons p ps ih =>
    intro st id hw hc hobs
    have hq := pollStep_never_watched p st id hw hc (hobs p (by simp))
    exact ih (pollStep st p) id hq.1 hq.2 (fun p' hp' => hobs p' (by simp [hp']))

/-- C1 (amended): over any sequence of polls, membership in the rendered
set is exactly `status ≠ completed ∨ id ∈ completedPending`; and a run
id that is never observed with a non-completed status is never promoted
into the completed-pending set, so any run record with that id and
status `completed` is excluded from the rendered set. -/
theorem lifecycle_visible_iff (polls : List (List WorkflowRun)) (id : Nat)
    (hobs : ∀ p ∈ polls, ∀ r ∈ p, r.id = id → r.status = "completed") :
    (∀ (runs : List WorkflowRun) (r : WorkflowRun),
       r ∈ visibleRuns runs (applyPolls polls) ↔
         r ∈ runs ∧ (r.status ≠ "completed" ∨ r.id ∈ (applyPolls polls).completedWorkflows))
    ∧ id ∉ (applyPolls polls).completedWorkflows
    ∧ (∀ (runs : List WorkflowRun) (r : WorkflowRun), r.id = id → r.status = "completed" →
         r ∉ visibleRuns runs (applyPolls polls)) := by
  have hnc : id ∉ (applyPolls polls).watchedWorkflows ∧
      id ∉ (applyPolls polls).completedWorkflows :=
    foldPolls_never_watched polls TrackerState.init id (by simp [TrackerState.init])
      (by simp [TrackerState.init]) hobs
  refine ⟨?_, hnc.2, ?_⟩
  · intro runs r
    unfold visibleRuns
    simp [List.mem_filter]
  · intro runs r hid hst hmem
    unfold visibleRuns at hmem
    rw [List.mem_filter] at hmem
    have := hmem.2
    simp [hst, hid] at this
    exact hnc.2 this

theorem lifecycle_visible_iff_witness :
    (∀ p ∈ ([[⟨1, "completed", 0⟩]] : List (List WorkflowRun)), ∀ r ∈ p,
        r.id = 1 → r.status = "completed")
    ∧ 1 ∉ (applyPolls [[⟨1, "completed", 0⟩]]).completedWorkflows := by
  refine ⟨by decide, ?_⟩
  exact (lifecycle_visible_iff [[⟨1, "completed", 0⟩]] 1 (by decide)).2.1

/-- The poll sequence refuting C1 as stated: run 1 is first observed
already completed, later observed in progress (a re-run reuses the id),
then observed completed again. -/
def pollsFirstCompleted : List (List WorkflowRun) :=
  [[⟨1, "completed", 0⟩], [⟨1, "in_progress", 0⟩], [⟨1, "completed", 0⟩]]

/-- C1 counterexample: the first observation of run 1 already has status
`completed`, yet after the full poll sequence run 1 is in the
completed-pending set and is a member of the rendered set, contradicting
"never promoted ... and excluded from the visible set". -/
theorem lifecycle_first_completed_promoted :
    (∃ r ∈ (pollsFirstCompleted.head (by decide)), r.id = 1 ∧ r.status = "completed")
    ∧ 1 ∈ (applyPolls pollsFirstCompleted).completedWorkflows
    ∧ (⟨1, "completed", 0⟩ : WorkflowRun) ∈
        visibleRuns [⟨1, "completed", 0⟩] (applyPolls pollsFirstCompleted) := by
  refine ⟨⟨⟨1, "completed", 0⟩, by decide, by decide, by decide⟩, by decide, by decide⟩

/-! ### Selection and navigation engine (src/dashboard.ts) -/

/-- The three stacked regions (`selectionMode` in src/dashboard.ts line 20). -/
inductive Region
  | workflows
  | prs
  | docker
deriving DecidableEq, Repr

inductive Direction
  | up
  | down
  | left
  | right
deriving DecidableEq, Repr

/-- The navigation-relevant slice of `Dashboard` state.  Navigation reads
only the lengths of `workflows`, `pullRequests` and `flatDockerServices`,
so those lists are embedded as counts.  `gridLen` is `this.grid.length`
(the number of blessed boxes, one per workflow, or one empty-state box). -/
structure NavState where
  selectedIndex : Int
  selectedPRIndex : Nat
  selectedDockerIndex : Nat
  selectionMode : Region
  wfCount : Nat
  prCount : Nat
  dockerCount : Nat
  showPRs : Bool
  showDocker : Bool
  cols : Nat
  rows : Nat
  gridLen : Nat
deriving DecidableEq, Repr

/-- Initial field values of `Dashboard` (src/dashboard.ts lines 16-44). -/
def NavState.init : NavState :=
  { selectedIndex := 0, selectedPRIndex := 0, selectedDockerIndex := 0,
    selectionMode := Region.workflows, wfCount := 0, prCount := 0, dockerCount := 0,
    showPRs := false, showDocker := false, cols := 1, rows := 1, gridLen := 0 }

/-- `Dashboard.indexToCoords` (lines 484-491).  JavaScript `Math.floor`
division and `%` remainder on possibly negative indices are `Int.fdiv`
and `Int.tmod`. -/
def indexToCoords (index : Int) (cols : Nat) : Int × Int :=
  let c : Int := max 1 (cols : Int)
  (Int.fdiv index c, Int.tmod index c)

/-- `Dashboard.coordsToIndex` (lines 494-496). -/
def coordsToIndex (row col : Int) (cols : Nat) : Int :=
  row * (cols : Int) + col

/-- `Dashboard.isValidGridPosition` (lines 499-505). -/
def isValidGridPosition (s : NavState) (row col : Int) : Bool :=
  if row < 0 ∨ row ≥ (s.rows : Int) ∨ col < 0 ∨ col ≥ (s.cols : Int) then false
  else
    decide (0 ≤ coordsToIndex row col s.cols ∧ coordsToIndex row col s.cols < (s.wfCount : Int))

/-- The `maxIndex` bound of `Dashboard.highlightSelected` (line 718). -/
def gridMaxIndex (s : NavState) : Int :=
  ((min s.gridLen s.wfCount : Nat) : Int) - 1

/-- The defensive re-clamp at the top of `Dashboard.highlightSelected`
(lines 713-721): with a non-empty grid, an index beyond
`min(grid.length, workflows.length) - 1` is pulled back to
`max(0, maxIndex)`. -/
def highlightClamp (s : NavState) : NavState :=
  if s.gridLen = 0 then s
  else if s.selectedIndex > gridMaxIndex s then
    { s with selectedIndex := max 0 (gridMaxIndex s) }
  else s

/-- The `!this.cols || !this.rows` normalization in `Dashboard.navigateGrid`
(lines 611-615). -/
def normalizeGrid (s : NavState) : NavState :=
  if s.cols = 0 ∨ s.rows = 0 then { s with cols := 1, rows := 1 } else s

/-- The `selectedIndex` validity reset in `Dashboard.navigateGrid`
(lines 617-623). -/
def resetIfInvalid (s : NavState) : NavState :=
  if s.selectedIndex ≥ (s.wfCount : Int) ∨ s.selectedIndex < 0 then
    { s with selectedIndex := 0 }
  else s

/-- The direction switch of `Dashboard.navigateGrid` (lines 629-670):
`none` encodes the early `return` (outer edge, or single column for
left/right). -/
def gridTarget (dir : Direction) (s : NavState) (cur : Int × Int) : Option (Int × Int) :=
  match dir with
  | .up => if cur.1 - 1 < 0 then none else some (cur.1 - 1, cur.2)
  | .down => if cur.1 + 1 ≥ (s.rows : Int) then none else some (cur.1 + 1, cur.2)
  | .left =>
    if s.cols ≤ 1 then none
    else if cur.2 - 1 < 0 then none else some (cur.1, cur.2 - 1)
  | .right =>
    if s.cols ≤ 1 then none
    else if cur.2 + 1 ≥ (s.cols : Int) then none else some (cur.1, cur.2 + 1)

/-- The body of `Dashboard.navigateGrid` after normalization
(lines 625-680): compute the target cell, validate it, assign, and
re-run `highlightSelected`. -/
def navigateGridCore (dir : Direction) (s1 : NavState) : NavState :=
  match gridTarget dir s1 (indexToCoords s1.selectedIndex s1.cols) with
  | none => s1
  | some (r, c) =>
    if isValidGridPosition s1 r c then
      if coordsToIndex r c s1.cols < (s1.wfCount : Int) then
        highlightClamp { s1 with selectedIndex := coordsToIndex r c s1.cols }
      else s1
    else s1

/-- `Dashboard.navigateGrid` (lines 601-688), composed from the pieces
above. -/
def navigateGrid (dir : Direction) (s : NavState) : NavState :=
  if s.wfCount = 0 ∨ s.gridLen = 0 then s
  else navigateGridCore dir (resetIfInvalid (normalizeGrid s))

/-- The `newIndex` switch of `Dashboard.navigatePRs` (lines 515-530):
left/up step back with wrap-around to the end, right/down step forward
with wrap-around to the beginning. -/
def wrapIndex (dir : Direction) (currentIndex : Int) (count : Nat) : Int :=
  match dir with
  | .left | .up =>
    if currentIndex - 1 < 0 then (count : Int) - 1 else currentIndex - 1
  | .right | .down =>
    if currentIndex + 1 ≥ (count : Int) then 0 else currentIndex + 1

/-- `Dashboard.navigatePRs` (lines 509-536): a circular strip. -/
def navigatePRs (dir : Direction) (s : NavState) : NavState :=
  if s.prCount = 0 then s
  else if wrapIndex dir (s.selectedPRIndex : Int) s.prCount ≠ (s.selectedPRIndex : Int) then
    { s with selectedPRIndex := (wrapIndex dir (s.selectedPRIndex : Int) s.prCount).toNat }
  else s

/-- `Dashboard.navigateDocker` (lines 539-566): a circular strip with
the same switch as `navigatePRs`. -/
def navigateDocker (dir : Direction) (s : NavState) : NavState :=
  if s.dockerCount = 0 then s
  else if wrapIndex dir (s.selectedDockerIndex : Int) s.dockerCount ≠
      (s.selectedDockerIndex : Int) then
    { s with
      selectedDockerIndex := (wrapIndex dir (s.selectedDockerIndex : Int) s.dockerCount).toNat }
  else s

/-- The `up`/`k` key handler of `Dashboard.setupKeyBindings`
(lines 278-315): region crossing out of the top row of the grid. -/
def keyUp (s : NavState) : NavState :=
  match s.selectionMode with
  | .workflows =>
    if (indexToCoords s.selectedIndex s.cols).1 = 0 then
      if s.showPRs = true ∧ 0 < s.prCount then
        highlightClamp
          (if 1 < s.cols ∧ 0 < (indexToCoords s.selectedIndex s.cols).2 then
            { s with selectionMode := Region.prs,
                     selectedPRIndex :=
                       (min (indexToCoords s.selectedIndex s.cols).2
                         ((s.prCount : Int) - 1)).toNat }
          else { s with selectionMode := Region.prs })
      else if s.showDocker = true ∧ 0 < s.dockerCount then
        highlightClamp { s with selectionMode := Region.docker }
      else s
    else navigateGrid .up s
  | .prs =>
    if s.showDocker = true ∧ 0 < s.dockerCount then { s with selectionMode := Region.docker }
    else navigatePRs .left s
  | .docker => navigateDocker .left s

/-- The `down`/`j` key handler of `Dashboard.setupKeyBindings`
(lines 317-344). -/
def keyDown (s : NavState) : NavState :=
  match s.selectionMode with
  | .docker =>
    if s.showPRs = true ∧ 0 < s.prCount then { s with selectionMode := Region.prs }
    else highlightClamp { s with selectionMode := Region.workflows, selectedIndex := 0 }
  | .prs =>
    highlightClamp
      { s with selectionMode := Region.workflows,
               selectedIndex :=
                 min (min ((s.selectedPRIndex : Int)) ((s.cols : Int) - 1))
                   ((s.wfCount : Int) - 1) }
  | .workflows => navigateGrid .down s

/-- The `left`/`h` key handler (lines 347-357). -/
def keyLeft (s : NavState) : NavState :=
  match s.selectionMode with
  | .workflows => navigateGrid .left s
  | .prs => navigatePRs .left s
  | .docker => navigateDocker .left s

/-- The `right`/`l` key handler (lines 359-369). -/
def keyRight (s : NavState) : NavState :=
  match s.selectionMode with
  | .workflows => navigateGrid .right s
  | .prs => navigatePRs .right s
  | .docker => navigateDocker .right s

/-- Dispatch a directional move to the corresponding key handler. -/
def moveKey (d : Direction) (s : NavState) : NavState :=
  match d with
  | .up => keyUp s
  | .down => keyDown s
  | .left => keyLeft s
  | .right => keyRight s

/-- Search for the least `k` with `n ≤ k * k`, structurally on a fuel
argument so it evaluates by kernel reduction. -/
def ceilSqrtAux (n : Nat) : Nat → Nat → Nat
  | 0, k => k
  | fuel + 1, k => if n ≤ k * k then k else ceilSqrtAux n fuel (k + 1)

/-- `Math.ceil(Math.sqrt n)` on a natural number: the least `k` with
`n ≤ k * k`. -/
def ceilSqrt (n : Nat) : Nat :=
  ceilSqrtAux n n 0

/-- `Dashboard.layoutWorkflows` (lines 1182-1297), restricted to the
fields it mutates: with zero workflows it swaps in the single
empty-state box; otherwise it recomputes `cols`, `rows`, rebuilds one
box per workflow, and calls `highlightSelected` (whose clamp is
`highlightClamp`). -/
def layoutCols (n : Nat) : Nat :=
  if n = 1 then 1 else min (ceilSqrt n) 3

def layoutWorkflows (s : NavState) : NavState :=
  if s.wfCount = 0 then { s with gridLen := 1 }
  else
    highlightClamp
      { s with cols := layoutCols s.wfCount,
               rows := (s.wfCount + layoutCols s.wfCount - 1) / layoutCols s.wfCount,
               gridLen := s.wfCount }

/-- `Dashboard.updateWorkflows` on the modal-closed path
(lines 1025-1097): replace the snapshot, set the panel flags from the
optional arguments, and re-layout only when the workflow count changed
or the grid does not exist yet. -/
def applySnapshotFields (wfs : Nat) (prs dockerSvcs : Option Nat) (s : NavState) : NavState :=
  { s with wfCount := wfs, prCount := prs.getD 0, dockerCount := dockerSvcs.getD 0,
           showPRs := prs.isSome, showDocker := dockerSvcs.isSome }

def updateWorkflows (wfs : Nat) (prs dockerSvcs : Option Nat) (s : NavState) : NavState :=
  if wfs ≠ s.wfCount ∨ (applySnapshotFields wfs prs dockerSvcs s).gridLen = 0 then
    layoutWorkflows (applySnapshotFields wfs prs dockerSvcs s)
  else applySnapshotFields wfs prs dockerSvcs s

/-- One interaction step: a directional move or a snapshot replacement. -/
inductive NavOp
  | move (d : Direction)
  | snapshot (wfs : Nat) (prs dockerSvcs : Option Nat)
deriving DecidableEq, Repr

def navStep (s : NavState) (op : NavOp) : NavState :=
  match op with
  | .move d => moveKey d s
  | .snapshot wfs prs dockerSvcs => updateWorkflows wfs prs dockerSvcs s

def runNav (ops : List NavOp) : NavState :=
  ops.foldl navStep NavState.init

/-- The workflow-grid part of the selection invariant that actually
holds: the grid index never reaches the workflow count and never drops
below `-1`. -/
def navInv (s : NavState) : Prop :=
  -1 ≤ s.selectedIndex ∧ (s.wfCount = 0 ∨ s.selectedIndex < (s.wfCount : Int))

theorem navInv_of_eq {s t : NavState} (hsel : t.selectedIndex = s.selectedIndex)
    (hwf : t.wfCount = s.wfCount) (h : navInv s) : navInv t := by
  unfold navInv at *
  rw [hsel, hwf]
  exact h

theorem navInv_highlightClamp_of_ne {s : NavState} (hg : s.gridLen ≠ 0)
    (hsel : -1 ≤ s.selectedIndex) : navInv (highlightClamp s) := by
  unfold highlightClamp navInv gridMaxIndex
  rw [if_neg hg]
  split
  · refine ⟨by simp, ?_⟩
    by_cases hw : s.wfCount = 0
    · exact Or.inl hw
    · right
      simp
      omega
  · refine ⟨hsel, ?_⟩
    by_cases hw : s.wfCount = 0
    · exact Or.inl hw
    · right
      rename_i hle
      simp only [gridMaxIndex, not_lt] at hle
      omega

theorem navInv_highlightClamp {s : NavState} (h : navInv s) : navInv (highlightClamp s) := by
  by_cases hg : s.gridLen = 0
  · unfold highlightClamp
    rw [if_pos hg]
    exact h
  · exact navInv_highlightClamp_of_ne hg h.1

theorem navInv_resetIfInvalid (t : NavState) : navInv (resetIfInvalid t) := by
  unfold resetIfInvalid navInv
  split
  · refine ⟨by simp, ?_⟩
    by_cases hw : t.wfCount = 0
    · exact Or.inl hw
    · right
      simp
      omega
  · rename_i hcond
    push_neg at hcond
    refine ⟨by omega, ?_⟩
    by_cases hw : t.wfCount = 0
    · exact Or.inl hw
    · exact Or.inr hcond.1

theorem navInv_navigateGridCore {s1 : NavState} (d : Direction) (h : navInv s1) :
    navInv (navigateGridCore d s1) := by
  unfold navigateGridCore
  match htarget : gridTarget d s1 (indexToCoords s1.selectedIndex s1.cols) with
  | none => exact h
  | some (r, c) =>
    simp only
    split
    · rename_i hvalid
      split
      · rename_i hlt
        apply navInv_highlightClamp
        unfold isValidGridPosition at hvalid
        refine ⟨?_, Or.inr hlt⟩
        simp only
        split at hvalid
        · simp at hvalid
        · simp only [decide_eq_true_eq] at hvalid
          omega
      · exact h
    · exact h

theorem navInv_navigateGrid {s : NavState} (d : Direction) (h : navInv s) :
    navInv (navigateGrid d s) := by
  unfold navigateGrid
  split
  · exact h
  · exact navInv_navigateGridCore d (navInv_resetIfInvalid (normalizeGrid s))

theorem navInv_navigatePRs {s : NavState} (d : Direction) (h : navInv s) :
    navInv (navigatePRs d s) := by
  unfold navigatePRs
  split
  · exact h
  · split
    · exact navInv_of_eq rfl rfl h
    · exact h

theorem navInv_navigateDocker {s : NavState} (d : Direction) (h : navInv s) :
    navInv (navigateDocker d s) := by
  unfold navigateDocker
  split
  · exact h
  · split
    · exact navInv_of_eq rfl rfl h
    · exact h

theorem navInv_keyUp {s : NavState} (h : navInv s) : navInv (keyUp s) := by
  unfold keyUp
  match hm : s.selectionMode with
  | .workflows =>
    simp only
    split
    · split
      · apply navInv_highlightClamp
        split
        · exact navInv_of_eq rfl rfl h
        · exact navInv_of_eq rfl rfl h
      · split
        · exact navInv_highlightClamp (navInv_of_eq rfl rfl h)
        · exact h
    · exact navInv_navigateGrid _ h
  | .prs =>
    simp only
    split
    · exact navInv_of_eq rfl rfl h
    · exact navInv_navigatePRs _ h
  | .docker => exact navInv_navigateDocker _ h

theorem navInv_keyDown {s : NavState} (h : navInv s) : navInv (keyDown s) := by
  unfold keyDown
  match hm : s.selectionMode with
  | .docker =>
    simp only
    split
    · exact navInv_of_eq rfl rfl h
    · apply navInv_highlightClamp
      refine ⟨by simp, ?_⟩
      by_cases hw : s.wfCount = 0
      · exact Or.inl hw
      · right
        simp
        omega
  | .prs =>
    simp only
    apply navInv_highlightClamp
    constructor
    · simp only
      omega
    · by_cases hw : s.wfCount = 0
      · exact Or.inl hw
      · right
        simp only
        omega
  | .workflows => exact navInv_navigateGrid _ h

theorem navInv_layoutWorkflows {t : NavState} (hsel : -1 ≤ t.selectedIndex) :
    navInv (layoutWorkflows t) := by
  unfold layoutWorkflows
  split
  · rename_i hw0
    exact ⟨hsel, Or.inl hw0⟩
  · rename_i hw0
    exact navInv_highlightClamp_of_ne (by simpa using hw0) hsel

theorem navInv_updateWorkflows {s : NavState} (wfs : Nat) (prs dockerSvcs : Option Nat)
    (h : navInv s) : navInv (updateWorkflows wfs prs dockerSvcs s) := by
  unfold updateWorkflows
  split
  · exact navInv_layoutWorkflows h.1
  · rename_i hcond
    push_neg at hcond
    refine @navInv_of_eq s (applySnapshotFields wfs prs dockerSvcs s) rfl ?_ h
    simp [applySnapshotFields, hcond.1]

theorem navInv_navStep {s : NavState} (op : NavOp) (h : navInv s) : navInv (navStep s op) := by
  match op with
  | .move d =>
    match d with
    | .up => exact navInv_keyUp h
    | .down => exact navInv_keyDown h
    | .left =>
      unfold navStep moveKey keyLeft
      match s.selectionMode with
      | .workflows => exact navInv_navigateGrid _ h
      | .prs => exact navInv_navigatePRs _ h
      | .docker => exact navInv_navigateDocker _ h
    | .right =>
      unfold navStep moveKey keyRight
      match s.selectionMode with
      | .workflows => exact navInv_navigateGrid _ h
      | .prs => exact navInv_navigatePRs _ h
      | .docker => exact navInv_navigateDocker _ h
  | .snapshot wfs prs dockerSvcs => exact navInv_updateWorkflows wfs prs dockerSvcs h

theorem navInv_runNav (ops : List NavOp) : navInv (runNav ops) := by
  have main : ∀ (l : List NavOp) (s : NavState), navInv s → navInv (l.foldl navStep s) := by
    intro l
    induction l with
    | nil => exact fun s h => h
    | cons op l' ih => exact fun s h => ih (navStep s op) (navInv_navStep op h)
  exact main ops NavState.init ⟨by simp [NavState.init], Or.inl rfl⟩

/-- C2 (amended): over any sequence of moves and snapshot replacements,
the workflow-grid selection index stays strictly below the workflow
count whenever the count is positive (and never drops below `-1`).  The
full claim fails for the strip indices, which are not re-clamped by a
snapshot replacement. -/
theorem nav_grid_index_in_range (ops : List NavOp) (h : 0 < (runNav ops).wfCount) :
    -1 ≤ (runNav ops).selectedIndex ∧
      (runNav ops).selectedIndex < ((runNav ops).wfCount : Int) := by
  have hinv := navInv_runNav ops
  refine ⟨hinv.1, ?_⟩
  rcases hinv.2 with h0 | hlt
  · omega
  · exact hlt

theorem nav_grid_index_in_range_witness :
    0 < (runNav [NavOp.snapshot 1 none none]).wfCount ∧
      (-1 ≤ (runNav [NavOp.snapshot 1 none none]).selectedIndex ∧
        (runNav [NavOp.snapshot 1 none none]).selectedIndex <
          ((runNav [NavOp.snapshot 1 none none]).wfCount : Int)) :=
  ⟨by decide, nav_grid_index_in_range [NavOp.snapshot 1 none none] (by decide)⟩

/-- The interaction sequence refuting C2 as stated: enter the
pull-request strip, move to its second entry, then replace the snapshot
with a single pull request.  The strip index is not re-clamped. -/
def prShrinkOps : List NavOp :=
  [.snapshot 1 (some 2) none, .move .up, .move .right, .snapshot 1 (some 1) none]

/-- C2 counterexample: after `prShrinkOps` the active region is the
pull-request strip, which has one item, yet the selection index is 1 —
out of `[0, 1)` while the region is non-empty. -/
theorem nav_pr_index_out_of_range :
    (runNav prShrinkOps).selectionMode = Region.prs
    ∧ (runNav prShrinkOps).prCount = 1
    ∧ (runNav prShrinkOps).selectedPRIndex = 1 := by decide

/-- C4 (amended): from the topmost row of the workflow grid, `move(up)`
enters the pull-request strip when it is shown and non-empty, else the
container-service strip when that is shown and non-empty, else is a
no-op.  `move(down)` from the pull-request strip returns to the workflow
grid preserving the selected column clamped into range; `move(down)`
from the container-service strip goes to the pull-request strip when
that is shown and non-empty, and only otherwise to the workflow grid, at
index 0. -/
theorem region_crossing (s : NavState) (hgrid : s.gridLen = s.wfCount) :
    (s.selectionMode = Region.workflows → (indexToCoords s.selectedIndex s.cols).1 = 0 →
      ((s.showPRs = true ∧ 0 < s.prCount → (keyUp s).selectionMode = Region.prs)
       ∧ (¬(s.showPRs = true ∧ 0 < s.prCount) → s.showDocker = true ∧ 0 < s.dockerCount →
            (keyUp s).selectionMode = Region.docker)
       ∧ (¬(s.showPRs = true ∧ 0 < s.prCount) → ¬(s.showDocker = true ∧ 0 < s.dockerCount) →
            keyUp s = s)))
    ∧ (s.selectionMode = Region.prs →
        (keyDown s).selectionMode = Region.workflows
        ∧ (keyDown s).selectedIndex =
            min (min ((s.selectedPRIndex : Int)) ((s.cols : Int) - 1)) ((s.wfCount : Int) - 1))
    ∧ (s.selectionMode = Region.docker →
        ((s.showPRs = true ∧ 0 < s.prCount → (keyDown s).selectionMode = Region.prs)
         ∧ (¬(s.showPRs = true ∧ 0 < s.prCount) →
             (keyDown s).selectionMode = Region.workflows ∧ (keyDown s).selectedIndex = 0))) := by
  have hmode_clamp : ∀ t : NavState, (highlightClamp t).selectionMode = t.selectionMode := by
    intro t
    unfold highlightClamp
    split
    · rfl
    · split <;> rfl
  obtain ⟨sel, sprIdx, sdockIdx, mode, wf, pr, dock, shp, shd, cls, rws, glen⟩ := s
  simp only at hgrid ⊢
  refine ⟨?_, ?_, ?_⟩
  · intro hm hrow
    subst hm
    simp only [keyUp] at *
    refine ⟨?_, ?_, ?_⟩
    · intro hpr
      rw [if_pos hrow, if_pos hpr, hmode_clamp]
      split <;> rfl
    · intro hnpr hdock
      rw [if_pos hrow, if_neg hnpr, if_pos hdock, hmode_clamp]
    · intro hnpr hndock
      rw [if_pos hrow, if_neg hnpr, if_neg hndock]
  · intro hm
    subst hm
    simp only [keyDown] at *
    refine ⟨hmode_clamp _, ?_⟩
    unfold highlightClamp gridMaxIndex
    split
    · rfl
    · split
      · rename_i hg hgt
        simp only at hgt ⊢
        omega
      · rfl
  · intro hm
    subst hm
    simp only [keyDown] at *
    refine ⟨?_, ?_⟩
    · intro hpr
      rw [if_pos hpr]
    · intro hnpr
      rw [if_neg hnpr]
      refine ⟨hmode_clamp _, ?_⟩
      unfold highlightClamp gridMaxIndex
      split
      · rfl
      · split
        · rename_i hg hgt
          simp only at hgt ⊢
          omega
        · rfl

theorem region_crossing_witness :
    (keyDown (runNav [NavOp.snapshot 2 (some 1) none,
        NavOp.move Direction.up])).selectionMode = Region.workflows
    ∧ (keyDown (runNav [NavOp.snapshot 2 (some 1) none,
        NavOp.move Direction.up])).selectedIndex =
        min (min (((runNav [NavOp.snapshot 2 (some 1) none,
            NavOp.move Direction.up]).selectedPRIndex : Int))
          (((runNav [NavOp.snapshot 2 (some 1) none,
            NavOp.move Direction.up]).cols : Int) - 1))
          (((runNav [NavOp.snapshot 2 (some 1) none,
            NavOp.move Direction.up]).wfCount : Int) - 1) :=
  (region_crossing (runNav [NavOp.snapshot 2 (some 1) none, NavOp.move Direction.up])
    (by decide)).2.1 (by decide)

/-- The interaction sequence refuting C4 as stated: a snapshot with two
workflows, one pull request and one container service; move up twice
(grid, then pull-request strip, then container-service strip), then move
down once. -/
def dockerCrossOps : List NavOp :=
  [.snapshot 2 (some 1) (some 1), .move .up, .move .up, .move .down]

/-- C4 counterexample: with the selection in the container-service strip
and a non-empty pull-request strip, `move(down)` lands in the
pull-request strip, not in the workflow grid as the claim states for
"either strip". -/
theorem keyDown_docker_goes_to_prs :
    (runNav (dockerCrossOps.take 3)).selectionMode = Region.docker
    ∧ 0 < (runNav (dockerCrossOps.take 3)).wfCount
    ∧ (runNav dockerCrossOps).selectionMode = Region.prs
    ∧ (runNav dockerCrossOps).selectionMode ≠ Region.workflows := by decide

/-! ### Refresh coordinator (src/app.ts `App.performRefresh`) -/

/-- The coordinator-relevant slice of `App` plus instrumentation: the
`isRefreshing` latch (line 19), the dashboard's modal flag consulted via
`isModalOpen()` (line 380), a count of adapter fan-out call sets issued,
and a count of finished cycles. -/
structure RefreshState where
  isRefreshing : Bool
  modalOpen : Bool
  adapterCallSets : Nat
  completedCycles : Nat
deriving DecidableEq, Repr

def RefreshState.init : RefreshState :=
  { isRefreshing := false, modalOpen := false, adapterCallSets := 0, completedCycles := 0 }

/-- Events of the single-threaded loop: a refresh request (manual or
timer tick), completion of the in-flight cycle (the `finally` block,
lines 466-470), and modal open/close. -/
inductive RefreshEvent
  | requestRefresh
  | finishRefresh
  | openModal
  | closeModal
deriving DecidableEq, Repr

/-- The guard logic of `App.performRefresh` (lines 378-383): a request
with a modal open returns before doing anything; a request while
refreshing returns before doing anything; otherwise the latch is set and
the adapter fan-out for this cycle is issued. -/
def refreshStep (s : RefreshState) : RefreshEvent → RefreshState
  | .requestRefresh =>
    if s.modalOpen then s
    else if s.isRefreshing then s
    else { s with isRefreshing := true, adapterCallSets := s.adapterCallSets + 1 }
  | .finishRefresh =>
    if s.isRefreshing then
      { s with isRefreshing := false, completedCycles := s.completedCycles + 1 }
    else s
  | .openModal => { s with modalOpen := true }
  | .closeModal => { s with modalOpen := false }

def runRefresh (evs : List RefreshEvent) : RefreshState :=
  evs.foldl refreshStep RefreshState.init

/-- C3: a refresh request while one is pending is dropped (identity: no
adapter calls, nothing queued), a request while a modal is open is fully
suppressed (identity), and over any event sequence the number of adapter
fan-out call sets equals the number of non-overlapping cycles (completed
cycles plus the at-most-one in flight). -/
theorem refresh_at_most_one (s : RefreshState) (evs : List RefreshEvent) :
    (s.isRefreshing = true → refreshStep s RefreshEvent.requestRefresh = s)
    ∧ (s.modalOpen = true → refreshStep s RefreshEvent.requestRefresh = s)
    ∧ (runRefresh evs).adapterCallSets =
        (runRefresh evs).completedCycles +
          (if (runRefresh evs).isRefreshing then 1 else 0) := by
  refine ⟨?_, ?_, ?_⟩
  · intro h
    simp only [refreshStep]
    split <;> rfl
  · intro h
    simp only [refreshStep]
    rw [if_pos h]
  · have main : ∀ (l : List RefreshEvent) (t : RefreshState),
        t.adapterCallSets = t.completedCycles + (if t.isRefreshing then 1 else 0) →
        (l.foldl refreshStep t).adapterCallSets =
          (l.foldl refreshStep t).completedCycles +
            (if (l.foldl refreshStep t).isRefreshing then 1 else 0) := by
      intro l
      induction l with
      | nil => exact fun t h => h
      | cons ev l' ih =>
        intro t h
        refine ih (refreshStep t ev) ?_
        match ev with
        | .requestRefresh =>
          by_cases hm : t.modalOpen = true
          · simpa [refreshStep, hm] using h
          · by_cases hr : t.isRefreshing = true
            · simpa [refreshStep, hm, hr] using h
            · simp only [Bool.not_eq_true] at hr
              simp [refreshStep, hm, hr] at h ⊢
              omega
        | .finishRefresh =>
          by_cases hr : t.isRefreshing = true
          · simp [refreshStep, hr] at h ⊢
            omega
          · simp only [Bool.not_eq_true] at hr
            simp [refreshStep, hr] at h ⊢
            omega
        | .openModal => simpa [refreshStep] using h
        | .closeModal => simpa [refreshStep] using h
    exact main evs RefreshState.init (by simp [RefreshState.init])

theorem refresh_at_most_one_witness :
    ((runRefresh [RefreshEvent.requestRefresh]).isRefreshing = true ∧
      refreshStep (runRefresh [RefreshEvent.requestRefresh]) RefreshEvent.requestRefresh =
        runRefresh [RefreshEvent.requestRefresh])
    ∧ ((runRefresh [RefreshEvent.openModal]).modalOpen = true ∧
      refreshStep (runRefresh [RefreshEvent.openModal]) RefreshEvent.requestRefresh =
        runRefresh [RefreshEvent.openModal]) :=
  ⟨⟨by decide,
    (refresh_at_most_one (runRefresh [RefreshEvent.requestRefresh]) []).1 (by decide)⟩,
   ⟨by decide,
    (refresh_at_most_one (runRefresh [RefreshEvent.openModal]) []).2.1 (by decide)⟩⟩

/-! ### Dismissal (src/app.ts `App.dismissCompletedWorkflow`) -/

/-- The dismissal-relevant slice of `App`: the two tracker key sets, the
dashboard's last displayed snapshot (`getCurrentWorkflows()`), and a
count of adapter calls issued (instrumentation; the dismiss path issues
none). -/
structure AppDismissState where
  watchedWorkflows : List Nat
  completedWorkflows : List Nat
  currentWorkflows : List WorkflowRun
  adapterCalls : Nat
deriving DecidableEq, Repr

/-- `App.updateDisplayAfterDismiss` (lines 505-521): re-filter the last
snapshot against the completed-pending map and hand it back to the
dashboard, with no API refresh. -/
def updateDisplayAfterDismiss (s : AppDismissState) : AppDismissState :=
  { s with currentWorkflows :=
      visibleRuns s.currentWorkflows ⟨s.watchedWorkflows, s.completedWorkflows⟩ }

/-- `App.dismissCompletedWorkflow` (lines 488-493): drop the id from
both trackers, then update the display locally. -/
def dismissCompletedWorkflow (workflowId : Nat) (s : AppDismissState) : AppDismissState :=
  updateDisplayAfterDismiss
    { s with completedWorkflows := setDelete workflowId s.completedWorkflows,
             watchedWorkflows := setDelete workflowId s.watchedWorkflows }

/-- C5 (amended): dismissing a CompletedPending run whose status is
`completed` removes every record with that id from the displayed set, as
a pure local transition issuing no adapter calls.  (A resurrected run
whose fetched status is non-completed survives dismissal: the filter
keeps every non-completed record.) -/
theorem dismiss_removes_completed (s : AppDismissState) (workflowId : Nat) :
    (∀ r ∈ (dismissCompletedWorkflow workflowId s).currentWorkflows,
       r.id = workflowId → r.status ≠ "completed")
    ∧ (dismissCompletedWorkflow workflowId s).adapterCalls = s.adapterCalls := by
  constructor
  · intro r hr hid hst
    unfold dismissCompletedWorkflow updateDisplayAfterDismiss visibleRuns at hr
    simp only [List.mem_filter, decide_eq_true_eq] at hr
    rcases hr.2 with h | h
    · exact h hst
    · rw [hid] at h
      unfold setDelete at h
      simp [List.mem_filter] at h
  · rfl

theorem dismiss_removes_completed_witness :
    (⟨1, "in_progress", 0⟩ : WorkflowRun).status ≠ "completed"
    ∧ (dismissCompletedWorkflow 1
        (⟨[], [1], [⟨1, "in_progress", 0⟩], 0⟩ : AppDismissState)).adapterCalls = 0 :=
  ⟨(dismiss_removes_completed ⟨[], [1], [⟨1, "in_progress", 0⟩], 0⟩ 1).1
      ⟨1, "in_progress", 0⟩ (by decide) (by decide),
   (dismiss_removes_completed ⟨[], [1], [⟨1, "in_progress", 0⟩], 0⟩ 1).2⟩

/-- C5 counterexample: a CompletedPending run (id 1 is in the
completed-pending map, e.g. a resurrected run) whose current status is
`in_progress` is still in the displayed set after `dismiss(1)`: the
re-filter keeps every record with non-completed status regardless of the
dismissal. -/
theorem dismiss_keeps_resurrected_active :
    (1 : Nat) ∈ (⟨[], [1], [⟨1, "in_progress", 0⟩], 0⟩ : AppDismissState).completedWorkflows
    ∧ (⟨1, "in_progress", 0⟩ : WorkflowRun) ∈
        (dismissCompletedWorkflow 1
          ⟨[], [1], [⟨1, "in_progress", 0⟩], 0⟩).currentWorkflows := by decide

/-! ### GitHubService: TTL cache and adapter error handling
(src/unnamed/part_008, second `GitHubService` class, lines 174-497) -/

/-- A repository record (`listRepositories` result rows). -/
structure Repository where
  owner : String
  name : String
deriving DecidableEq, Repr

/-- A workflow job record; only identity and status are consulted by the
embedded operations. -/
structure WorkflowJob where
  id : Nat
  status : String
deriving DecidableEq, Repr

/-- A pull-request record; only the number is consulted by the embedded
operations. -/
structure PullRequest where
  number : Nat
deriving DecidableEq, Repr

/-- `cacheTimeout = 5000` milliseconds (part_008 line 176). -/
def cacheTimeout : Int := 5000

/-- One entry of `GitHubService.cache : Map<string, {data, timestamp}>`. -/
structure CacheEntry (α : Type) where
  data : α
  timestamp : Int
deriving DecidableEq, Repr

/-- The cache map, with JavaScript `Map` insertion-order semantics.  The
TypeScript map stores `unknown` data under disjoint key prefixes
(`runs:`, `jobs:`, `prs:`); the embedding carries one typed map per
prefix. -/
abbrev Cache (α : Type) : Type := List (String × CacheEntry α)

def cacheLookup {α : Type} : Cache α → String → Option (CacheEntry α)
  | [], _ => none
  | e :: rest, key => if e.1 = key then some e.2 else cacheLookup rest key

/-- `Map.delete` (part_008 line 391). -/
def cacheDelete {α : Type} (c : Cache α) (key : String) : Cache α :=
  c.filter (fun e => decide (e.1 ≠ key))

/-- `GitHubService.setCache` (part_008 lines 397-402): `Map.set`
replaces in place or appends. -/
def setCache {α : Type} (now : Int) (c : Cache α) (key : String) (data : α) : Cache α :=
  if c.any (fun e => decide (e.1 = key)) then
    c.map (fun e => if e.1 = key then (key, ⟨data, now⟩) else e)
  else c ++ [(key, ⟨data, now⟩)]

/-- `GitHubService.getFromCache` (part_008 lines 384-395): a missing key
is a miss; an entry older than the TTL is deleted at this access and is
a miss; otherwise the stored data is returned.  The second component is
the cache after the (lazy) eviction. -/
def getFromCache {α : Type} (now : Int) (c : Cache α) (key : String) :
    Option α × Cache α :=
  match cacheLookup c key with
  | none => (none, c)
  | some e =>
    if now - e.timestamp > cacheTimeout then (none, cacheDelete c key)
    else (some e.data, c)

deriving instance DecidableEq for Except

/-- The outcome of one `execa('gh', ...)` invocation: the parsed result,
or the thrown error's message. -/
abbrev AdapterResult (α : Type) : Type := Except String α

/-- The substring tested by the catch blocks
(`error.message?.includes("API rate limit exceeded")`). -/
def rateLimitNeedle : String := "API rate limit exceeded"

/-- The distinct error rethrown on a rate limit. -/
def rateLimitMessage : String := "GitHub API rate limit exceeded. Please wait before trying again."

/-- Character-list prefix test, structurally recursive. -/
def charsStartWith : List Char → List Char → Bool
  | [], _ => true
  | _ :: _, [] => false
  | a :: as, b :: bs => if a = b then charsStartWith as bs else false

/-- Character-list substring test, structurally recursive. -/
def charsContain (needle : List Char) : List Char → Bool
  | [] => charsStartWith needle []
  | b :: bs => if charsStartWith needle (b :: bs) then true else charsContain needle bs

/-- `message.includes(needle)` on the error message. -/
def includesRateLimit (msg : String) : Bool :=
  charsContain rateLimitNeedle.data msg.data

/-- `GitHubService.listRepositories` (part_008 lines 178-201): no cache;
a rate-limit error is rethrown with the distinct message, any other
error yields an empty list. -/
def listRepositories (adapter : AdapterResult (List Repository)) :
    Except String (List Repository) :=
  match adapter with
  | .ok repos => .ok repos
  | .error msg =>
    if includesRateLimit msg then .error rateLimitMessage else .ok []

/-- `GitHubService.listWorkflowRuns` (part_008 lines 203-279).  The
cache key is `runs:<repo>` — note it does not include the `before`
filter.  On a miss the adapter is invoked once (`gh run list`, with
`--created <before` when `before` is given); a rate-limit error is
rethrown, any other error yields an empty list (not cached).  Returns
(result, cache after the call, number of adapter invocations). -/
def listWorkflowRuns (gh : String → Nat → Option Int → AdapterResult (List WorkflowRun))
    (now : Int) (cache : Cache (List WorkflowRun)) (repo : String) (limit : Nat)
    (before : Option Int) :
    Except String (List WorkflowRun) × Cache (List WorkflowRun) × Nat :=
  match getFromCache now cache ("runs:" ++ repo) with
  | (some cached, cache1) => (.ok cached, cache1, 0)
  | (none, cache1) =>
    match gh repo limit before with
    | .ok runs => (.ok runs, setCache now cache1 ("runs:" ++ repo) runs, 1)
    | .error msg =>
      if includesRateLimit msg then (.error rateLimitMessage, cache1, 1)
      else (.ok [], cache1, 1)

/-- `GitHubService.getWorkflowJobs` (part_008 lines 281-335): cache key
`jobs:<repo>:<runId>`; every error — including a rate limit — yields an
empty list. -/
def getWorkflowJobs (gh : String → Nat → AdapterResult (List WorkflowJob))
    (now : Int) (cache : Cache (List WorkflowJob)) (repo : String) (runId : Nat) :
    Except String (List WorkflowJob) × Cache (List WorkflowJob) × Nat :=
  match getFromCache now cache ("jobs:" ++ repo ++ ":" ++ toString runId) with
  | (some cached, cache1) => (.ok cached, cache1, 0)
  | (none, cache1) =>
    match gh repo runId with
    | .ok jobs =>
      (.ok jobs, setCache now cache1 ("jobs:" ++ repo ++ ":" ++ toString runId) jobs, 1)
    | .error _ => (.ok [], cache1, 1)

/-- `GitHubService.listPullRequests` (part_008 lines 408-484): cache key
`prs:<repo>`; a rate-limit error is rethrown, any other error yields an
empty list. -/
def listPullRequests (gh : String → Nat → AdapterResult (List PullRequest))
    (now : Int) (cache : Cache (List PullRequest)) (repo : String) (limit : Nat) :
    Except String (List PullRequest) × Cache (List PullRequest) × Nat :=
  match getFromCache now cache ("prs:" ++ repo) with
  | (some cached, cache1) => (.ok cached, cache1, 0)
  | (none, cache1) =>
    match gh repo limit with
    | .ok prs => (.ok prs, setCache now cache1 ("prs:" ++ repo) prs, 1)
    | .error msg =>
      if includesRateLimit msg then (.error rateLimitMessage, cache1, 1)
      else (.ok [], cache1, 1)

/-- C7 (amended): on an adapter error, `listRepositories`,
`listWorkflowRuns` and `listPullRequests` propagate a rate-limit error
as the distinct rate-limit message and fail soft to an empty list on any
other error; `getWorkflowJobs` fails soft to an empty list on every
error, a rate limit included. -/
theorem adapter_error_handling (now : Int) (repo : String) (limit runId : Nat)
    (before : Option Int) (msg : String) :
    (includesRateLimit msg = true →
      listRepositories (.error msg) = .error rateLimitMessage
      ∧ (listWorkflowRuns (fun _ _ _ => .error msg) now [] repo limit before).1 =
          .error rateLimitMessage
      ∧ (listPullRequests (fun _ _ => .error msg) now [] repo limit).1 =
          .error rateLimitMessage
      ∧ (getWorkflowJobs (fun _ _ => .error msg) now [] repo runId).1 = .ok [])
    ∧ (includesRateLimit msg = false →
      listRepositories (.error msg) = .ok []
      ∧ (listWorkflowRuns (fun _ _ _ => .error msg) now [] repo limit before).1 = .ok []
      ∧ (listPullRequests (fun _ _ => .error msg) now [] repo limit).1 = .ok []
      ∧ (getWorkflowJobs (fun _ _ => .error msg) now [] repo runId).1 = .ok []) := by
  constructor
  · intro h
    refine ⟨?_, ?_, ?_, ?_⟩
    · simp [listRepositories, h]
    · simp [listWorkflowRuns, getFromCache, cacheLookup, h]
    · simp [listPullRequests, getFromCache, cacheLookup, h]
    · simp [getWorkflowJobs, getFromCache, cacheLookup]
  · intro h
    refine ⟨?_, ?_, ?_, ?_⟩
    · simp [listRepositories, h]
    · simp [listWorkflowRuns, getFromCache, cacheLookup, h]
    · simp [listPullRequests, getFromCache, cacheLookup, h]
    · simp [getWorkflowJobs, getFromCache, cacheLookup]

theorem adapter_error_handling_witness :
    (includesRateLimit "API rate limit exceeded" = true ∧
      listRepositories (.error "API rate limit exceeded") = .error rateLimitMessage)
    ∧ (includesRateLimit "boom" = false ∧
      listRepositories (.error "boom") = .ok []) :=
  ⟨⟨by decide,
    ((adapter_error_handling 0 "o/r" 1 1 none "API rate limit exceeded").1 (by decide)).1⟩,
   ⟨by decide,
    ((adapter_error_handling 0 "o/r" 1 1 none "boom").2 (by decide)).1⟩⟩

/-- C7 counterexample: a rate-limit failure of the jobs query is
swallowed into an empty list instead of propagating as the distinct
rate-limit error, contrary to the claim that every poll-source adapter
call propagates rate limits. -/
theorem getWorkflowJobs_swallows_rate_limit :
    (getWorkflowJobs (fun _ _ => .error "API rate limit exceeded") 0 [] "o/r" 1).1 = .ok []
    ∧ (getWorkflowJobs (fun _ _ => .error "API rate limit exceeded") 0 [] "o/r" 1).1 ≠
        .error rateLimitMessage := by decide

theorem getFromCache_singleton_fresh {α : Type} (now t0 : Int) (key : String) (v : α)
    (h : ¬ now - t0 > cacheTimeout) :
    getFromCache now [(key, ⟨v, t0⟩)] key = (some v, [(key, ⟨v, t0⟩)]) := by
  unfold getFromCache cacheLookup
  rw [if_pos rfl]
  simp [h]

theorem getFromCache_singleton_expired {α : Type} (now t0 : Int) (key : String) (v : α)
    (h : now - t0 > cacheTimeout) :
    getFromCache now [(key, ⟨v, t0⟩)] key = (none, []) := by
  unfold getFromCache cacheLookup cacheDelete
  rw [if_pos rfl]
  simp [h]

theorem cacheDelete_lookup {α : Type} (c : Cache α) (key k2 : String) (h : k2 ≠ key) :
    cacheLookup (cacheDelete c key) k2 = cacheLookup c k2 := by
  induction c with
  | nil => rfl
  | cons e rest ih =>
    by_cases he : e.1 = key
    · have hne : ¬ e.1 = k2 := by
        rw [he]
        exact fun hk => h hk.symm
      have hdel : cacheDelete (e :: rest) key = cacheDelete rest key := by
        simp [cacheDelete, he]
      rw [hdel, ih]
      show cacheLookup rest k2 = if e.1 = k2 then some e.2 else cacheLookup rest k2
      rw [if_neg hne]
    · have hdel : cacheDelete (e :: rest) key = e :: cacheDelete rest key := by
        simp [cacheDelete, he]
      rw [hdel]
      show (if e.1 = k2 then some e.2 else cacheLookup (cacheDelete rest key) k2) =
        (if e.1 = k2 then some e.2 else cacheLookup rest k2)
      by_cases he2 : e.1 = k2
      · rw [if_pos he2, if_pos he2]
      · rw [if_neg he2, if_neg he2, ih]

/-- C8: the cache in front of `listWorkflowRuns`.  A first call at `t0`
stores the fetched value under `runs:<repo>` with one adapter
invocation; a second call within the TTL returns the identical stored
value with zero adapter invocations and an unchanged cache; a call after
the TTL evicts the expired entry at that access and makes exactly one
new adapter invocation, storing the fresh value; and `getFromCache` only
ever touches the accessed key — an expired entry under any other key is
left in place (lazy eviction, no sweep). -/
theorem cache_roundtrip (repo : String) (limit : Nat) (v w : List WorkflowRun)
    (t0 t1 : Int) (gh : String → Nat → Option Int → AdapterResult (List WorkflowRun)) :
    listWorkflowRuns (fun _ _ _ => .ok v) t0 [] repo limit none =
      (.ok v, [("runs:" ++ repo, ⟨v, t0⟩)], 1)
    ∧ (t1 - t0 ≤ cacheTimeout →
        listWorkflowRuns gh t1 [("runs:" ++ repo, ⟨v, t0⟩)] repo limit none =
          (.ok v, [("runs:" ++ repo, ⟨v, t0⟩)], 0))
    ∧ (t1 - t0 > cacheTimeout →
        listWorkflowRuns (fun _ _ _ => .ok w) t1 [("runs:" ++ repo, ⟨v, t0⟩)] repo limit none =
          (.ok w, [("runs:" ++ repo, ⟨w, t1⟩)], 1))
    ∧ (∀ (c : Cache (List WorkflowRun)) (now : Int) (key k2 : String), k2 ≠ key →
        cacheLookup (getFromCache now c key).2 k2 = cacheLookup c k2) := by
  refine ⟨?_, ?_, ?_, ?_⟩
  · rfl
  · intro h
    unfold listWorkflowRuns
    rw [getFromCache_singleton_fresh _ _ _ _ (by omega)]
  · intro h
    unfold listWorkflowRuns
    rw [getFromCache_singleton_expired _ _ _ _ h]
    simp [setCache]
  · intro c now key k2 h
    unfold getFromCache
    match hl : cacheLookup c key with
    | none => rfl
    | some e =>
      simp only
      split
      · exact cacheDelete_lookup c key k2 h
      · rfl

theorem cache_roundtrip_witness :
    ((0 : Int) - 0 ≤ cacheTimeout ∧
      listWorkflowRuns (fun _ _ _ => .ok []) 0
          [("runs:" ++ "o/r", ⟨([] : List WorkflowRun), 0⟩)] "o/r" 20 none =
        (.ok [], [("runs:" ++ "o/r", ⟨([] : List WorkflowRun), 0⟩)], 0))
    ∧ ((6000 : Int) - 0 > cacheTimeout ∧
      listWorkflowRuns (fun _ _ _ => .ok []) 6000
          [("runs:" ++ "o/r", ⟨([] : List WorkflowRun), 0⟩)] "o/r" 20 none =
        (.ok [], [("runs:" ++ "o/r", ⟨([] : List WorkflowRun), 6000⟩)], 1)) :=
  ⟨⟨by decide,
    (cache_roundtrip "o/r" 20 [] [] 0 0 (fun _ _ _ => .ok [])).2.1 (by decide)⟩,
   ⟨by decide,
    (cache_roundtrip "o/r" 20 [] [] 0 6000 (fun _ _ _ => .ok [])).2.2.1 (by decide)⟩⟩

/-- Insertion into a list kept sorted by `createdAt` descending,
modelling the JavaScript
`sort((a, b) => b.createdAt - a.createdAt)` comparator result
(part_008 line 362 and lines 378-380). -/
def insertByCreatedDesc (r : WorkflowRun) : List WorkflowRun → List WorkflowRun
  | [] => [r]
  | x :: xs =>
    if x.createdAt < r.createdAt then r :: x :: xs else x :: insertByCreatedDesc r xs

/-- Sort by creation time, most recent first. -/
def sortByCreatedDesc (l : List WorkflowRun) : List WorkflowRun :=
  l.foldr insertByCreatedDesc []

/-- The `for (const repo of repos)` loop shared by
`getAllRecentWorkflows` and `getOlderWorkflows` (part_008 lines 352-359
and 370-375): sequential per-repo `listWorkflowRuns` calls concatenated;
a thrown (rate-limit) error aborts the loop and propagates.  The cache
is threaded through the calls and the adapter invocations are counted. -/
def listRunsAll (gh : String → Nat → Option Int → AdapterResult (List WorkflowRun))
    (now : Int) :
    List String → Cache (List WorkflowRun) → Nat → Option Int →
      Except String (List WorkflowRun) × Cache (List WorkflowRun) × Nat
  | [], cache, _, _ => (.ok [], cache, 0)
  | repo :: rest, cache, limit, before =>
    match listWorkflowRuns gh now cache repo limit before with
    | (.ok runs, cache1, k) =>
      match listRunsAll gh now rest cache1 limit before with
      | (.ok more, cache2, k2) => (.ok (runs ++ more), cache2, k + k2)
      | (.error e, cache2, k2) => (.error e, cache2, k + k2)
    | (.error e, cache1, k) => (.error e, cache1, k)

/-- `GitHubService.getAllRecentWorkflows` (part_008 lines 352-363):
fetch every repo with the default limit 20 and no `before` filter, then
sort by creation time, most recent first. -/
def getAllRecentWorkflows (gh : String → Nat → Option Int → AdapterResult (List WorkflowRun))
    (now : Int) (repos : List String) (cache : Cache (List WorkflowRun)) :
    Except String (List WorkflowRun) × Cache (List WorkflowRun) × Nat :=
  match listRunsAll gh now repos cache 20 none with
  | (.ok runs, cache1, k) => (.ok (sortByCreatedDesc runs), cache1, k)
  | (.error e, cache1, k) => (.error e, cache1, k)

/-- `GitHubService.getOlderWorkflows` (part_008 lines 365-382): fetch
every repo with the given limit and `before` filter, sort newest first,
and keep the first `limit` entries. -/
def getOlderWorkflows (gh : String → Nat → Option Int → AdapterResult (List WorkflowRun))
    (now : Int) (repos : List String) (cache : Cache (List WorkflowRun))
    (beforeTimestamp : Int) (limit : Nat) :
    Except String (List WorkflowRun) × Cache (List WorkflowRun) × Nat :=
  match listRunsAll gh now repos cache limit (some beforeTimestamp) with
  | (.ok runs, cache1, k) => (.ok ((sortByCreatedDesc runs).take limit), cache1, k)
  | (.error e, cache1, k) => (.error e, cache1, k)

/-- The resurrect-relevant slice of `App`: the configured repositories,
the oldest-seen cursor (`oldestWorkflowTimestamp`, src/app.ts line 26),
the completed-pending key set, the dashboard's current snapshot, and the
service cache. -/
structure ResurrectState where
  repositories : List String
  oldestWorkflowTimestamp : Option Int
  completedWorkflows : List Nat
  currentWorkflows : List WorkflowRun
  cache : Cache (List WorkflowRun)
deriving DecidableEq, Repr

/-- `App.resurrectOldestWorkflow` (src/app.ts lines 523-583): without a
cursor or repositories it is a no-op; otherwise it fetches one run older
than the cursor, and if one is found inserts it as completed-pending,
moves the cursor to its creation time, and appends it to the displayed
snapshot.  A thrown error is caught and logged; the cache mutations made
before the throw persist. -/
def resurrectOldestWorkflow
    (gh : String → Nat → Option Int → AdapterResult (List WorkflowRun))
    (now : Int) (s : ResurrectState) : ResurrectState :=
  match s.oldestWorkflowTimestamp with
  | none => s
  | some ts =>
    if s.repositories.isEmpty then s
    else
      match getOlderWorkflows gh now s.repositories s.cache ts 1 with
      | (.error _, cache1, _) => { s with cache := cache1 }
      | (.ok [], cache1, _) => { s with cache := cache1 }
      | (.ok (r :: _), cache1, _) =>
        { s with cache := cache1,
                 completedWorkflows := setAdd r.id s.completedWorkflows,
                 oldestWorkflowTimestamp := some r.createdAt,
                 currentWorkflows := s.currentWorkflows ++ [r] }

/-- The adapter semantics of `gh run list`: the repository's runs
(newest first), restricted to those created strictly before the
`--created <before` bound when given, truncated to the limit. -/
def ghRunList (world : String → List WorkflowRun) :
    String → Nat → Option Int → AdapterResult (List WorkflowRun) :=
  fun repo limit before =>
    .ok (((world repo).filter (fun r =>
      match before with
      | some b => decide (r.createdAt < b)
      | none => true)).take limit)

/-- The C6 failing input: one repository whose only recent run (id 2,
created at 10) is still warm in the cache from the refresh that set the
cursor to 5 (the oldest of the displayed window). -/
def resurrectWorld : String → List WorkflowRun :=
  fun _ => [⟨2, "completed", 10⟩]

def resurrectStart : ResurrectState :=
  { repositories := ["o/r"], oldestWorkflowTimestamp := some 5,
    completedWorkflows := [], currentWorkflows := [⟨2, "completed", 10⟩],
    cache := [("runs:" ++ "o/r", ⟨[⟨2, "completed", 10⟩], 0⟩)] }

/-- C6, evaluated at the failing input: a resurrect call 1000 ms after
the refresh hits the `runs:<repo>` cache entry — whose key ignores the
`before` filter — receives the cached recent run created at 10, and
moves the cursor forward from 5 to 10 instead of walking backward.  The
already-displayed newest run is also marked completed-pending. -/
theorem resurrect_cursor_moves_forward :
    resurrectStart.oldestWorkflowTimestamp = some 5
    ∧ (resurrectOldestWorkflow (ghRunList resurrectWorld) 1000
        resurrectStart).oldestWorkflowTimestamp = some 10
    ∧ (2 : Nat) ∈ (resurrectOldestWorkflow (ghRunList resurrectWorld) 1000
        resurrectStart).completedWorkflows := by decide

/-- The cursor update of `App.performRefresh` (src/app.ts lines
431-435): with a non-empty fetched list the cursor becomes the
`createdAt` of its last element, regardless of the previous cursor. -/
def refreshCursor (oldCursor : Option Int) (allRuns : List WorkflowRun) : Option Int :=
  if h : allRuns ≠ [] then some ((allRuns.getLast h).createdAt) else oldCursor

theorem mem_insertByCreatedDesc {y r : WorkflowRun} {l : List WorkflowRun}
    (hy : y ∈ insertByCreatedDesc r l) : y = r ∨ y ∈ l := by
  induction l with
  | nil =>
    simp [insertByCreatedDesc] at hy
    exact Or.inl hy
  | cons z zs ih =>
    unfold insertByCreatedDesc at hy
    split at hy
    · rcases List.mem_cons.mp hy with h | h
      · exact Or.inl h
      · exact Or.inr h
    · rcases List.mem_cons.mp hy with h | h
      · exact Or.inr (by simp [h])
      · rcases ih h with h' | h'
        · exact Or.inl h'
        · exact Or.inr (by simp [h'])

theorem pairwise_createdDesc_insert (r : WorkflowRun) (l : List WorkflowRun)
    (h : l.Pairwise (fun a b => b.createdAt ≤ a.createdAt)) :
    (insertByCreatedDesc r l).Pairwise (fun a b => b.createdAt ≤ a.createdAt) := by
  induction l with
  | nil => simp [insertByCreatedDesc]
  | cons x xs ih =>
    unfold insertByCreatedDesc
    split
    · rename_i hlt
      refine List.Pairwise.cons ?_ h
      intro y hy
      rcases List.mem_cons.mp hy with hy | hy
      · subst hy
        omega
      · have := (List.pairwise_cons.mp h).1 y hy
        omega
    · rename_i hge
      rw [List.pairwise_cons]
      refine ⟨?_, ih (List.pairwise_cons.mp h).2⟩
      intro y hy
      rcases mem_insertByCreatedDesc hy with hy' | hy'
      · subst hy'
        omega
      · exact (List.pairwise_cons.mp h).1 y hy'

theorem pairwise_createdDesc_sort (l : List WorkflowRun) :
    (sortByCreatedDesc l).Pairwise (fun a b => b.createdAt ≤ a.createdAt) := by
  induction l with
  | nil => simp [sortByCreatedDesc]
  | cons x xs ih => exact pairwise_createdDesc_insert x _ ih

theorem pairwise_getLast_min :
    ∀ (l : List WorkflowRun) (h : l ≠ []),
    l.Pairwise (fun a b => b.createdAt ≤ a.createdAt) →
    ∀ r ∈ l, (l.getLast h).createdAt ≤ r.createdAt := by
  intro l
  induction l with
  | nil => intro h; exact absurd rfl h
  | cons x xs ih =>
    intro h hp r hr
    match xs, hr with
    | [], hr =>
      simp at hr
      subst hr
      simp [List.getLast]
    | y :: ys, hr =>
      rw [List.getLast_cons (by simp)]
      rcases List.mem_cons.mp hr with hr | hr
      · subst hr
        have hlast : (y :: ys).getLast (by simp) ∈ y :: ys := List.getLast_mem _
        have := (List.pairwise_cons.mp hp).1 _ hlast
        omega
      · exact ih (by simp) (List.pairwise_cons.mp hp).2 r hr

/-- C10: a refresh cycle whose fetch succeeds with a non-empty run list
sets the cursor to the `createdAt` of the last element of the fetched
(newest-first sorted) list, which is a minimum of the list — and it does
so regardless of the previous cursor value, so a cursor previously moved
back by resurrect calls is discarded: whenever every run of the current
poll window was created after the old cursor, the new cursor is strictly
newer. -/
theorem refresh_cursor_overwrites
    (gh : String → Nat → Option Int → AdapterResult (List WorkflowRun)) (now : Int)
    (repos : List String) (cache : Cache (List WorkflowRun)) (oldCursor : Option Int)
    (runs : List WorkflowRun) (c1 : Cache (List WorkflowRun)) (k : Nat)
    (hfetch : getAllRecentWorkflows gh now repos cache = (.ok runs, c1, k))
    (hne : runs ≠ []) :
    refreshCursor oldCursor runs = some ((runs.getLast hne).createdAt)
    ∧ (∀ r ∈ runs, (runs.getLast hne).createdAt ≤ r.createdAt)
    ∧ (∀ t, oldCursor = some t → (∀ r ∈ runs, t < r.createdAt) →
        ∃ t2, refreshCursor oldCursor runs = some t2 ∧ t < t2) := by
  have hpair : runs.Pairwise (fun a b => b.createdAt ≤ a.createdAt) := by
    unfold getAllRecentWorkflows at hfetch
    match hl : listRunsAll gh now repos cache 20 none with
    | (.ok rs, c2, k2) =>
      rw [hl] at hfetch
      simp only [Prod.mk.injEq, Except.ok.injEq] at hfetch
      rw [← hfetch.1]
      exact pairwise_createdDesc_sort rs
    | (.error e, c2, k2) =>
      rw [hl] at hfetch
      simp at hfetch
  refine ⟨?_, ?_, ?_⟩
  · unfold refreshCursor
    rw [dif_pos hne]
  · exact pairwise_getLast_min runs hne hpair
  · intro t hcur hall
    refine ⟨(runs.getLast hne).createdAt, ?_, ?_⟩
    · unfold refreshCursor
      rw [dif_pos hne]
    · exact hall _ (List.getLast_mem hne)

theorem refresh_cursor_overwrites_witness :
    (getAllRecentWorkflows (fun _ _ _ => .ok [⟨1, "completed", 3⟩]) 0 ["o/r"] [] =
        (.ok [⟨1, "completed", 3⟩],
          [("runs:" ++ "o/r", ⟨[⟨1, "completed", 3⟩], 0⟩)], 1))
    ∧ (refreshCursor (some 1) [⟨1, "completed", 3⟩] =
        some ((([⟨1, "completed", 3⟩] : List WorkflowRun).getLast (by decide)).createdAt)
      ∧ (∀ r ∈ ([⟨1, "completed", 3⟩] : List WorkflowRun),
          (([⟨1, "completed", 3⟩] : List WorkflowRun).getLast (by decide)).createdAt ≤
            r.createdAt)
      ∧ (∀ t, (some 1 : Option Int) = some t →
          (∀ r ∈ ([⟨1, "completed", 3⟩] : List WorkflowRun), t < r.createdAt) →
          ∃ t2, refreshCursor (some 1) [⟨1, "completed", 3⟩] = some t2 ∧ t < t2)) :=
  ⟨by decide,
   refresh_cursor_overwrites (fun _ _ _ => .ok [⟨1, "completed", 3⟩]) 0 ["o/r"] []
     (some 1) [⟨1, "completed", 3⟩]
     [("runs:" ++ "o/r", ⟨[⟨1, "completed", 3⟩], 0⟩)] 1 (by decide) (by decide)⟩

/-! ### Event log (src/dashboard.ts `Dashboard.log` / `updateDebugBox`) -/

/-- The log filter level (`Dashboard.logLevel`, line 33). -/
inductive LogLevel
  | info
  | debug
  | trace
deriving DecidableEq, Repr

/-- The `levelHierarchy` map of `Dashboard.updateDebugBox`
(lines 2242-2246). -/
def levelValue : LogLevel → Nat
  | .info => 0
  | .debug => 1
  | .trace => 2

/-- One stored log message (`Dashboard.logMessages` rows, lines 34-39);
the formatted/timestamp fields are not consulted by the filter. -/
structure LogEntry where
  message : String
  type : String
deriving DecidableEq, Repr

/-- `maxLogMessages = 100` (line 40). -/
def maxLogMessages : Nat := 100

/-- `Dashboard.log` (lines 2199-2236), restricted to the buffer: push
the entry, then keep only the last `maxLogMessages` entries
(`slice(-maxLogMessages)`).  The entry is stored regardless of the
current filter level — `log` never consults `logLevel`. -/
def logMsg (messages : List LogEntry) (m : LogEntry) : List LogEntry :=
  if (messages ++ [m]).length > maxLogMessages then
    (messages ++ [m]).drop ((messages ++ [m]).length - maxLogMessages)
  else messages ++ [m]

/-- The level filter of `Dashboard.updateDebugBox` (lines 2250-2263):
`info`, `event` and `error` always pass; `debug` passes from filter
level `debug` up; `trace` passes only at filter level `trace`; anything
else passes. -/
def filterByLevel (logLevel : LogLevel) (messages : List LogEntry) : List LogEntry :=
  messages.filter (fun msg =>
    if msg.type = "info" ∨ msg.type = "event" ∨ msg.type = "error" then true
    else if msg.type = "debug" then decide (levelValue logLevel ≥ levelValue LogLevel.debug)
    else if msg.type = "trace" then decide (levelValue logLevel ≥ levelValue LogLevel.trace)
    else true)

/-- C9: appending one message at each of the five levels to an empty
buffer and rendering with filter `debug` yields exactly the info, event,
debug and error messages (no trace); rendering with filter `trace`
yields all five; and a message is stored by `log` regardless of level
(it is always the last buffer entry), so a trace message logged below
the current filter is revealed when the filter is raised to `trace`. -/
theorem log_filter_levels (m1 m2 m3 m4 m5 : String) (b : List LogEntry) (m : LogEntry) :
    (filterByLevel LogLevel.debug
        ([⟨m2, "event"⟩, ⟨m3, "debug"⟩, ⟨m4, "trace"⟩, ⟨m5, "error"⟩].foldl logMsg
          (logMsg [] ⟨m1, "info"⟩)) =
      [⟨m1, "info"⟩, ⟨m2, "event"⟩, ⟨m3, "debug"⟩, ⟨m5, "error"⟩])
    ∧ (filterByLevel LogLevel.trace
        ([⟨m2, "event"⟩, ⟨m3, "debug"⟩, ⟨m4, "trace"⟩, ⟨m5, "error"⟩].foldl logMsg
          (logMsg [] ⟨m1, "info"⟩)) =
      [⟨m1, "info"⟩, ⟨m2, "event"⟩, ⟨m3, "debug"⟩, ⟨m4, "trace"⟩, ⟨m5, "error"⟩])
    ∧ (logMsg b m).getLast? = some m
    ∧ (m.type = "trace" → m ∈ filterByLevel LogLevel.trace (logMsg b m)) := by
  have hlast : (logMsg b m).getLast? = some m := by
    unfold logMsg
    split
    · rename_i hgt
      have hle : (b ++ [m]).length - maxLogMessages ≤ b.length := by
        simp at hgt ⊢
        unfold maxLogMessages at *
        omega
      rw [List.drop_append_of_le_length hle, List.getLast?_concat]
    · exact List.getLast?_concat _
  refine ⟨by rfl, by rfl, hlast, ?_⟩
  intro htype
  have hmem : m ∈ logMsg b m := List.mem_of_getLast?_eq_some hlast
  unfold filterByLevel
  rw [List.mem_filter]
  refine ⟨hmem, ?_⟩
  have h1 : ¬ (m.type = "info" ∨ m.type = "event" ∨ m.type = "error") := by
    rw [htype]
    simp
  rw [if_neg h1, if_neg (by rw [htype]; simp), if_pos htype]
  rfl

theorem log_filter_levels_witness :
    (⟨"x", "trace"⟩ : LogEntry) ∈
      filterByLevel LogLevel.trace (logMsg [] ⟨"x", "trace"⟩) :=
  (log_filter_levels "a" "b" "c" "d" "e" [] ⟨"x", "trace"⟩).2.2.2 rfl

end GhHud
